import Mathlib

/-!
Shallow embedding of `src/python/v1/generate_campaign_report.py`.

Python dicts preserve insertion order, so every mapping in the report data
is modelled as an ordered association list.  A report row is a dict that may
or may not contain the keys `dimensionValues` / `metricValues`; each of those
maps a name to a value wrapper, itself a dict whose first value is extracted
by `list(elem.values())[0]`.  Failures (`KeyError`, `IndexError`) are
modelled with `Except`; the local file at the output path is modelled as an
`Option` holding the list of written csv records (each a list of cells).
-/

/-- A Python dict used as a value wrapper, e.g. `{'value': 'Fall Promo'}`
or `{'integerValue': '100'}`: an ordered association list. -/
abbrev ValueWrapper := List (String × String)

/-- One report row as returned by the API: the two optional dict entries
`dimensionValues` and `metricValues`, each an ordered mapping from a
dimension/metric name to its value wrapper. -/
structure ReportRow where
  dimensionValues : Option (List (String × ValueWrapper))
  metricValues : Option (List (String × ValueWrapper))
deriving Repr, DecidableEq

/-- The Python exceptions that `save_to_csv` can raise. -/
inductive PyError where
  | keyError (key : String)
  | indexError
deriving Repr, DecidableEq

/-- `d[k]` on a Python dict entry: `KeyError` when the key is absent. -/
def getField {α : Type} (v : Option α) (key : String) : Except PyError α :=
  match v with
  | some x => Except.ok x
  | none => Except.error (PyError.keyError key)

/-- `list(elem.values())[0]`: the first value of a wrapper dict,
`IndexError` on an empty dict. -/
def firstValue (elem : ValueWrapper) : Except PyError String :=
  match elem with
  | [] => Except.error PyError.indexError
  | (_, v) :: _ => Except.ok v

/-- The list comprehension
`[list(elem.values())[0] for elem in elems]`: left to right, first
exception wins. -/
def extractAll : List (String × ValueWrapper) → Except PyError (List String)
  | [] => Except.ok []
  | e :: es =>
    match firstValue e.2 with
    | Except.error err => Except.error err
    | Except.ok v =>
      match extractAll es with
      | Except.error err => Except.error err
      | Except.ok vs => Except.ok (v :: vs)

/-- `list(report[0]['dimensionValues'].keys()) +
list(report[0]['metricValues'].keys())` (line 77). -/
def headerCells (row : ReportRow) : Except PyError (List String) :=
  match getField row.dimensionValues "dimensionValues" with
  | Except.error err => Except.error err
  | Except.ok dv =>
    match getField row.metricValues "metricValues" with
    | Except.error err => Except.error err
    | Except.ok mv => Except.ok (dv.map Prod.fst ++ mv.map Prod.fst)

/-- The cell list written for one row (lines 81-83): first values of the
wrappers of `row['dimensionValues']` then of `row['metricValues']`. -/
def rowCells (row : ReportRow) : Except PyError (List String) :=
  match getField row.dimensionValues "dimensionValues" with
  | Except.error err => Except.error err
  | Except.ok dv =>
    match getField row.metricValues "metricValues" with
    | Except.error err => Except.error err
    | Except.ok mv => extractAll (dv ++ mv)

/-- The records written to the csv file: a list of cell lists. -/
abbrev CsvContent := List (List String)

/-- The `for row in report` loop (lines 80-83): appends each row's record
to the lines already written; stops at the first raised exception, leaving
the earlier lines in the file. -/
def writeRows : List ReportRow → CsvContent → CsvContent × Option PyError
  | [], acc => (acc, none)
  | r :: rs, acc =>
    match rowCells r with
    | Except.error err => (acc, some err)
    | Except.ok cells => writeRows rs (acc ++ [cells])

/-- `save_to_csv` (lines 63-83).  `fs` is the state of the file at
`csv_output_path` (`none` when absent); an empty report returns without
touching it.  Otherwise `open(..., 'w')` truncates the file, the header is
written, then every row; an exception leaves the partially written file
behind and is reported in the second component. -/
def save_to_csv (report : List ReportRow) (fs : Option CsvContent) :
    Option CsvContent × Option PyError :=
  match report with
  | [] => (fs, none)
  | first :: _ =>
    match headerCells first with
    | Except.error err => (some [], some err)
    | Except.ok header =>
      let res := writeRows report [header]
      (some res.1, res.2)

/-! ### Total views of a well-formed row -/

/-- The flattened entries of a row: dimension entries then metric entries
(in a well-formed row both dicts are present). -/
def rowEntries (r : ReportRow) : List (String × ValueWrapper) :=
  r.dimensionValues.getD [] ++ r.metricValues.getD []

/-- The flattened dimension-then-metric key names of a row. -/
def rowKeys (r : ReportRow) : List String :=
  (rowEntries r).map Prod.fst

/-- The single extracted value of a (nonempty) wrapper. -/
def extractedValue (w : ValueWrapper) : String :=
  (w.headD ("", "")).2

/-- The flattened dimension-then-metric extracted values of a row. -/
def rowVals (r : ReportRow) : List String :=
  (rowEntries r).map (fun e => extractedValue e.2)

/-- The flattened (name, extracted value) pairs of a row. -/
def rowPairs (r : ReportRow) : List (String × String) :=
  (rowEntries r).map (fun e => (e.1, extractedValue e.2))

/-- A row on which `save_to_csv` cannot raise: both dicts present and
every value wrapper nonempty. -/
def wellFormedRow (r : ReportRow) : Bool :=
  r.dimensionValues.isSome && r.metricValues.isSome &&
    (rowEntries r).all (fun e => !e.2.isEmpty)

/-! ### Report fetcher (`generate_campaign_report`, lines 27-60) -/

/-- A `{'year': _, 'month': _, 'day': _}` date. -/
structure DateSpec where
  year : Nat
  month : Nat
  day : Nat
deriving Repr, DecidableEq

/-- The `date_range` dict (lines 35-38). -/
structure DateRange where
  start_date : DateSpec
  end_date : DateSpec
deriving Repr, DecidableEq

/-- The `report_spec` dict (lines 47-51). -/
structure ReportSpec where
  date_range : DateRange
  dimensions : List String
  metrics : List String
deriving Repr, DecidableEq

/-- The generate call as issued (line 57-58): the `parent` path parameter
and the `report_spec` of the request body. -/
structure GenerateRequest where
  parent : String
  report_spec : ReportSpec
deriving Repr, DecidableEq

/-- The response of the generate call: its ordered list of rows. -/
structure GenerateResponse where
  rows : List ReportRow
deriving Repr, DecidableEq

/-- The request built by `generate_campaign_report` for a publisher:
fixed date range 2023-12-01 .. 2023-12-31, fixed dimensions, fixed
metrics, parent `'accounts/{}'.format(publisher_id)`. -/
def campaignReportRequest (publisher_id : String) : GenerateRequest :=
  { parent := "accounts/" ++ publisher_id,
    report_spec :=
      { date_range :=
          { start_date := { year := 2023, month := 12, day := 1 },
            end_date := { year := 2023, month := 12, day := 31 } },
        dimensions := ["CAMPAIGN_NAME", "COUNTRY", "AD_NAME"],
        metrics := ["IMPRESSIONS", "INSTALLS", "CLICKS"] } }

/-- `generate_campaign_report` (lines 27-60): issues the fixed request via
the service and returns `response['rows']`. -/
def generate_campaign_report (service : GenerateRequest → GenerateResponse)
    (publisher_id : String) : List ReportRow :=
  (service (campaignReportRequest publisher_id)).rows

/-! ### Spreadsheet uploader (`upload_csv_to_google_sheets`, lines 86-111) -/

/-- The `file_metadata` dict (lines 100-103). -/
structure FileMetadata where
  name : String
  mimeType : String
deriving Repr, DecidableEq

/-- The `MediaFileUpload` object (line 104). -/
structure MediaUpload where
  path : String
  mimetype : String
  resumable : Bool
deriving Repr, DecidableEq

/-- One `files().create(...)` call (lines 105-109). -/
structure DriveCreateCall where
  body : FileMetadata
  media_body : MediaUpload
  fieldMask : String
deriving Repr, DecidableEq

/-- `upload_csv_to_google_sheets` (lines 86-111): builds the metadata with
the current time `now` (`str(time.time())`) and the Sheets conversion MIME
type, performs one resumable create call through the drive service, and
returns the created file's id together with the list of create calls
issued. -/
def upload_csv_to_google_sheets (drive_create : DriveCreateCall → String)
    (now : String) (csv_output_path : String) : String × List DriveCreateCall :=
  let file_metadata : FileMetadata :=
    { name := "campaign report csv upload " ++ now,
      mimeType := "application/vnd.google-apps.spreadsheet" }
  let media : MediaUpload :=
    { path := csv_output_path, mimetype := "text/csv", resumable := true }
  let call : DriveCreateCall :=
    { body := file_metadata, media_body := media, fieldMask := "id" }
  (drive_create call, [call])

/-! ### `main` (lines 114-120) -/

/-- `PUBLISHER_ID` (line 24). -/
def PUBLISHER_ID : String := "pub-XXXXXXXXXXXXXXXX"

/-- The default `csv_output_path` of `save_to_csv` and
`upload_csv_to_google_sheets` (lines 63, 86). -/
def defaultCsvPath : String := "/tmp/campaign_report.csv"

/-- The observable outcome of one `main` run: the final state of the file
at the default path, the paths on which the upload step was invoked, and a
raised exception if any. -/
structure MainResult where
  csvFile : Option CsvContent
  uploads : List String
  error : Option PyError
deriving Repr, DecidableEq

/-- `main` (lines 114-120): fetch, `save_to_csv(report)` on the default
path, then `upload_csv_to_google_sheets()` on the default path; an
exception in `save_to_csv` aborts the run before the upload step. -/
def main_run (service : GenerateRequest → GenerateResponse)
    (fs : Option CsvContent) : MainResult :=
  let report := generate_campaign_report service PUBLISHER_ID
  match save_to_csv report fs with
  | (fs1, some err) => { csvFile := fs1, uploads := [], error := some err }
  | (fs1, none) => { csvFile := fs1, uploads := [defaultCsvPath], error := none }

/-! ### Rendering and naive re-parsing of the csv text -/

/-- Does `csv.writer` (QUOTE_MINIMAL) have to quote this cell? -/
def needsQuote (s : List Char) : Bool :=
  s.any (fun c => c = ',' || c = '"' || c = '\r' || c = '\n')

/-- Double every quote character, as `csv.writer` escapes quotes. -/
def escapeQuotes : List Char → List Char
  | [] => []
  | c :: cs =>
    if c = '"' then '"' :: '"' :: escapeQuotes cs else c :: escapeQuotes cs

/-- One rendered cell: quoted and escaped only when needed. -/
def quoteCell (s : List Char) : List Char :=
  if needsQuote s then '"' :: (escapeQuotes s ++ ['"']) else s

/-- Join cell texts with the `,` delimiter. -/
def joinComma : List (List Char) → List Char
  | [] => []
  | [c] => c
  | c :: cs => c ++ ',' :: joinComma cs

/-- One line of the csv file as written by `csv.writer.writerow`
(without the line terminator). -/
def renderLine (cells : List String) : String :=
  String.mk (joinComma (cells.map (fun s => quoteCell s.data)))

/-- The written file as its list of text lines. -/
def renderFile (lines : CsvContent) : List String :=
  lines.map renderLine

/-- Naive delimited-text split of a line at every `,`. -/
def splitComma : List Char → List (List Char)
  | [] => [[]]
  | c :: cs =>
    if c = ',' then [] :: splitComma cs
    else
      match splitComma cs with
      | [] => [[c]]
      | p :: ps => (c :: p) :: ps

/-- Re-parse one text line as delimited text. -/
def parseLine (line : String) : List String :=
  (splitComma line.data).map (fun l => String.mk l)

/-- Re-parse the whole file as delimited text. -/
def parseFile (lines : List String) : CsvContent :=
  lines.map parseLine

/-! ### The spec's two-row example -/

/-- Row 1 of the spec's example scenario. -/
def exampleRow1 : ReportRow :=
  { dimensionValues := some
      [("CAMPAIGN_NAME", [("value", "Fall Promo")]),
       ("COUNTRY", [("value", "US")]),
       ("AD_NAME", [("value", "Ad1")])],
    metricValues := some
      [("IMPRESSIONS", [("integerValue", "100")]),
       ("INSTALLS", [("integerValue", "5")]),
       ("CLICKS", [("integerValue", "20")])] }

/-- Row 2 of the spec's example scenario. -/
def exampleRow2 : ReportRow :=
  { dimensionValues := some
      [("CAMPAIGN_NAME", [("value", "Fall Promo")]),
       ("COUNTRY", [("value", "CA")]),
       ("AD_NAME", [("value", "Ad1")])],
    metricValues := some
      [("IMPRESSIONS", [("integerValue", "50")]),
       ("INSTALLS", [("integerValue", "2")]),
       ("CLICKS", [("integerValue", "9")])] }

/-- The example report of the spec. -/
def exampleReport : List ReportRow := [exampleRow1, exampleRow2]

/-- A service that always answers with zero rows. -/
def emptyService : GenerateRequest → GenerateResponse :=
  fun _ => { rows := [] }

/-! ### Theorems -/

/-- C3: for every empty input sequence, the exporter performs no file
write (the state of the target path is returned unchanged, whether a file
exists there or not) and returns without error. -/
theorem save_to_csv_empty_noop (fs : Option CsvContent) :
    save_to_csv [] fs = (fs, none) := rfl

/-- C7: every invocation of the report fetcher issues exactly the request
built by `campaignReportRequest`, whose report spec carries the fixed date
range 2023-12-01 through 2023-12-31, the fixed ordered dimension list, the
fixed ordered metric list, and whose parent scopes it to the given
publisher; this holds regardless of what the service returns. -/
theorem fetch_request_is_fixed (service : GenerateRequest → GenerateResponse)
    (publisher_id : String) :
    generate_campaign_report service publisher_id
        = (service (campaignReportRequest publisher_id)).rows ∧
    (campaignReportRequest publisher_id).report_spec.date_range
        = { start_date := { year := 2023, month := 12, day := 1 },
            end_date := { year := 2023, month := 12, day := 31 } } ∧
    (campaignReportRequest publisher_id).report_spec.dimensions
        = ["CAMPAIGN_NAME", "COUNTRY", "AD_NAME"] ∧
    (campaignReportRequest publisher_id).report_spec.metrics
        = ["IMPRESSIONS", "INSTALLS", "CLICKS"] ∧
    (campaignReportRequest publisher_id).parent = "accounts/" ++ publisher_id :=
  ⟨rfl, rfl, rfl, rfl, rfl⟩

/-- C8: every call of the uploader issues exactly one create call, whose
metadata name embeds the current time, whose MIME type is the native
spreadsheet conversion type, whose media upload is resumable, and the call
returns the id the drive service answered for that one call. -/
theorem upload_creates_one_spreadsheet (drive_create : DriveCreateCall → String)
    (now : String) (csv_output_path : String) :
    upload_csv_to_google_sheets drive_create now csv_output_path
        = (drive_create
            { body := { name := "campaign report csv upload " ++ now,
                        mimeType := "application/vnd.google-apps.spreadsheet" },
              media_body := { path := csv_output_path, mimetype := "text/csv",
                              resumable := true },
              fieldMask := "id" },
           [{ body := { name := "campaign report csv upload " ++ now,
                        mimeType := "application/vnd.google-apps.spreadsheet" },
              media_body := { path := csv_output_path, mimetype := "text/csv",
                              resumable := true },
              fieldMask := "id" }]) ∧
    (upload_csv_to_google_sheets drive_create now csv_output_path).2.length = 1 :=
  ⟨rfl, rfl⟩

/-! ### Lemmas about well-formed rows -/

/-- On a nonempty wrapper, extraction succeeds with its first value. -/
theorem firstValue_ok (w : ValueWrapper) (h : w ≠ []) :
    firstValue w = Except.ok (extractedValue w) := by
  cases w with
  | nil => exact absurd rfl h
  | cons p rest => cases p; rfl

/-- When every wrapper is nonempty, the comprehension succeeds with the
extracted values in order. -/
theorem extractAll_ok (l : List (String × ValueWrapper))
    (h : ∀ e ∈ l, e.2 ≠ []) :
    extractAll l = Except.ok (l.map (fun e => extractedValue e.2)) := by
  induction l with
  | nil => rfl
  | cons e es ih =>
    simp only [extractAll, firstValue_ok e.2 (h e (List.mem_cons_self e es)),
      ih (fun x hx => h x (List.mem_cons_of_mem e hx)), List.map_cons]

/-- Unpacking of `wellFormedRow`. -/
theorem wellFormedRow_spec (r : ReportRow) (h : wellFormedRow r = true) :
    ∃ dv mv, r.dimensionValues = some dv ∧ r.metricValues = some mv ∧
      ∀ e ∈ dv ++ mv, e.2 ≠ [] := by
  unfold wellFormedRow at h
  simp only [Bool.and_eq_true, Option.isSome_iff_exists] at h
  obtain ⟨⟨⟨dv, hdv⟩, ⟨mv, hmv⟩⟩, hall⟩ := h
  refine ⟨dv, mv, hdv, hmv, ?_⟩
  intro e he
  have hmem : e ∈ rowEntries r := by
    simp [rowEntries, hdv, hmv, he]
  have := List.all_eq_true.mp hall e hmem
  simpa [List.isEmpty_iff] using this

/-- On a well-formed row the header extraction succeeds with the row's
flattened key names. -/
theorem headerCells_ok (r : ReportRow) (h : wellFormedRow r = true) :
    headerCells r = Except.ok (rowKeys r) := by
  obtain ⟨dv, mv, hdv, hmv, _⟩ := wellFormedRow_spec r h
  simp [headerCells, getField, hdv, hmv, rowKeys, rowEntries]

/-- On a well-formed row the per-row extraction succeeds with the row's
flattened values. -/
theorem rowCells_ok (r : ReportRow) (h : wellFormedRow r = true) :
    rowCells r = Except.ok (rowVals r) := by
  obtain ⟨dv, mv, hdv, hmv, hall⟩ := wellFormedRow_spec r h
  simp [rowCells, getField, hdv, hmv, extractAll_ok (dv ++ mv) hall,
    rowVals, rowEntries]

/-- The row loop over well-formed rows appends every row's flattened
values and raises nothing. -/
theorem writeRows_ok (rows : List ReportRow) (acc : CsvContent)
    (h : ∀ r ∈ rows, wellFormedRow r = true) :
    writeRows rows acc = (acc ++ rows.map rowVals, none) := by
  induction rows generalizing acc with
  | nil => simp [writeRows]
  | cons r rs ih =>
    simp only [writeRows, rowCells_ok r (h r (List.mem_cons_self r rs))]
    rw [ih (acc ++ [rowVals r]) (fun x hx => h x (List.mem_cons_of_mem r hx))]
    simp

/-- `save_to_csv` on a nonempty report of well-formed rows: the file holds
the first row's flattened keys as header, then every row's flattened
values, and nothing is raised. -/
theorem save_to_csv_wf_eq (report : List ReportRow) (fs : Option CsvContent)
    (first : ReportRow) (rest : List ReportRow)
    (hrep : report = first :: rest)
    (hwf : ∀ r ∈ report, wellFormedRow r = true) :
    save_to_csv report fs
      = (some (rowKeys first :: report.map rowVals), none) := by
  subst hrep
  simp only [save_to_csv,
    headerCells_ok first (hwf first (List.mem_cons_self first rest)),
    writeRows_ok (first :: rest) [rowKeys first] hwf]
  simp

/-- The flattened values and the flattened keys of a row have equal
length. -/
theorem rowVals_length (r : ReportRow) :
    (rowVals r).length = (rowKeys r).length := by
  simp [rowVals, rowKeys]

/-- A row whose inner dicts have fewer and different keys than
`exampleRow1`, yet are present and nonempty. -/
def misalignedRow : ReportRow :=
  { dimensionValues := some [("COUNTRY", [("value", "US")])],
    metricValues := some [("CLICKS", [("integerValue", "7")])] }

/-- C1: on a non-empty report whose rows all share the first row's key
lists (same key sets in the same order), the exporter writes the header
made of the first row's dimension-key names then metric-key names, and for
every row one line holding, in that same column order, the single
extracted value of each of its dimension/metric entries; on the spec's
two-row example it produces exactly the 3-line file with header
`CAMPAIGN_NAME,COUNTRY,AD_NAME,IMPRESSIONS,INSTALLS,CLICKS` followed by
the two value lines. -/
theorem save_to_csv_uniform (report : List ReportRow) (fs : Option CsvContent)
    (first : ReportRow) (rest : List ReportRow)
    (hrep : report = first :: rest)
    (hwf : ∀ r ∈ report, wellFormedRow r = true)
    (hkeys : ∀ r ∈ report, rowKeys r = rowKeys first) :
    save_to_csv report fs
        = (some (rowKeys first :: report.map rowVals), none) ∧
    rowKeys first
        = (first.dimensionValues.getD []).map Prod.fst
            ++ (first.metricValues.getD []).map Prod.fst ∧
    (∀ r ∈ report, (rowKeys first).zip (rowVals r) = rowPairs r) ∧
    save_to_csv exampleReport none
        = (some (rowKeys exampleRow1 :: exampleReport.map rowVals), none) ∧
    renderFile (rowKeys exampleRow1 :: exampleReport.map rowVals)
        = ["CAMPAIGN_NAME,COUNTRY,AD_NAME,IMPRESSIONS,INSTALLS,CLICKS",
           "Fall Promo,US,Ad1,100,5,20",
           "Fall Promo,CA,Ad1,50,2,9"] := by
  refine ⟨save_to_csv_wf_eq report fs first rest hrep hwf, ?_, ?_, by decide, by decide⟩
  · simp [rowKeys, rowEntries]
  · intro r hr
    rw [← hkeys r hr, rowKeys, rowVals, List.zip_map' Prod.fst
      (fun e => extractedValue e.2) (rowEntries r), rowPairs]

/-- Witness for C1 at the spec's example report. -/
theorem save_to_csv_uniform_witness :
    save_to_csv exampleReport none
        = (some (rowKeys exampleRow1 :: exampleReport.map rowVals), none) :=
  (save_to_csv_uniform exampleReport none exampleRow1 [exampleRow2] rfl
    (by decide) (by decide)).1

/-- C2: on a non-empty uniform report of N rows the produced file has
exactly 1 + N lines, and every line (header and data alike) has the
header's column count. -/
theorem save_to_csv_line_counts (report : List ReportRow)
    (fs : Option CsvContent) (first : ReportRow) (rest : List ReportRow)
    (hrep : report = first :: rest)
    (hwf : ∀ r ∈ report, wellFormedRow r = true)
    (hkeys : ∀ r ∈ report, rowKeys r = rowKeys first) :
    ∃ l, save_to_csv report fs = (some l, none) ∧
      l.length = 1 + report.length ∧
      ∀ line ∈ l, line.length = (rowKeys first).length := by
  refine ⟨rowKeys first :: report.map rowVals,
    save_to_csv_wf_eq report fs first rest hrep hwf, by simp [Nat.add_comm], ?_⟩
  intro line hline
  rcases List.mem_cons.mp hline with rfl | hline'
  · rfl
  · obtain ⟨r, hr, rfl⟩ := List.mem_map.mp hline'
    rw [rowVals_length, hkeys r hr]

/-- Witness for C2 at the spec's example report. -/
theorem save_to_csv_line_counts_witness :
    ∃ l, save_to_csv exampleReport none = (some l, none) ∧
      l.length = 1 + exampleReport.length ∧
      ∀ line ∈ l, line.length = (rowKeys exampleRow1).length :=
  save_to_csv_line_counts exampleReport none exampleRow1 [exampleRow2] rfl
    (by decide) (by decide)

/-- C9: when some row after the first has missing or reordered keys inside
its (present, nonempty-wrapper) dimension/metric dicts, the exporter
validates nothing and completes without raising, emitting each row's
values in that row's own order, not reordered to the header. -/
theorem save_to_csv_no_validation (report : List ReportRow)
    (fs : Option CsvContent) (first : ReportRow) (rest : List ReportRow)
    (hrep : report = first :: rest)
    (hwf : ∀ r ∈ report, wellFormedRow r = true)
    (_hmis : ∃ r ∈ rest, rowKeys r ≠ rowKeys first) :
    save_to_csv report fs
      = (some (rowKeys first :: report.map rowVals), none) :=
  save_to_csv_wf_eq report fs first rest hrep hwf

/-- Witness for C9 on a report whose second row has different, fewer
keys. -/
theorem save_to_csv_no_validation_witness :
    save_to_csv [exampleRow1, misalignedRow] none
      = (some (rowKeys exampleRow1
          :: [exampleRow1, misalignedRow].map rowVals), none) :=
  save_to_csv_no_validation [exampleRow1, misalignedRow] none exampleRow1
    [misalignedRow] rfl (by decide) ⟨misalignedRow, by decide, by decide⟩

/-! ### Lemmas about ill-formed rows -/

/-- When some wrapper in the list is empty, the comprehension raises. -/
theorem extractAll_error (l : List (String × ValueWrapper))
    (h : ∃ e ∈ l, e.2 = []) :
    ∃ err, extractAll l = Except.error err := by
  induction l with
  | nil => simp at h
  | cons e es ih =>
    by_cases he : e.2 = []
    · exact ⟨PyError.indexError, by simp [extractAll, he, firstValue]⟩
    · obtain ⟨x, hx, hx2⟩ := h
      rcases List.mem_cons.mp hx with rfl | hx'
      · exact absurd hx2 he
      · obtain ⟨err, herr⟩ := ih ⟨x, hx', hx2⟩
        exact ⟨err, by simp [extractAll, firstValue_ok e.2 he, herr]⟩

/-- On an ill-formed row (a missing inner dict, or some empty wrapper)
the per-row extraction raises. -/
theorem rowCells_error (r : ReportRow) (h : wellFormedRow r = false) :
    ∃ err, rowCells r = Except.error err := by
  cases hdv : r.dimensionValues with
  | none => exact ⟨PyError.keyError "dimensionValues", by simp [rowCells, getField, hdv]⟩
  | some dv =>
    cases hmv : r.metricValues with
    | none => exact ⟨PyError.keyError "metricValues", by simp [rowCells, getField, hdv, hmv]⟩
    | some mv =>
      have hall : (rowEntries r).all (fun e => !e.2.isEmpty) = false := by
        unfold wellFormedRow at h
        simpa [hdv, hmv] using h
      obtain ⟨e, he, hne⟩ := List.all_eq_false.mp hall
      have he' : e ∈ dv ++ mv := by simpa [rowEntries, hdv, hmv] using he
      have he2 : e.2 = [] := by simpa [List.isEmpty_iff] using hne
      obtain ⟨err, herr⟩ := extractAll_error (dv ++ mv) ⟨e, he', he2⟩
      exact ⟨err, by simp [rowCells, getField, hdv, hmv, herr]⟩

/-- The row loop raises as soon as it reaches an ill-formed row. -/
theorem writeRows_error (rows : List ReportRow) (acc : CsvContent)
    (h : ∃ r ∈ rows, wellFormedRow r = false) :
    ∃ err, (writeRows rows acc).2 = some err := by
  induction rows generalizing acc with
  | nil => simp at h
  | cons r rs ih =>
    cases hwf : wellFormedRow r with
    | false =>
      obtain ⟨err, herr⟩ := rowCells_error r hwf
      exact ⟨err, by simp [writeRows, herr]⟩
    | true =>
      obtain ⟨x, hx, hxf⟩ := h
      rcases List.mem_cons.mp hx with rfl | hx'
      · rw [hwf] at hxf; exact absurd hxf (by simp)
      · obtain ⟨err, herr⟩ := ih (acc ++ [rowVals r]) ⟨x, hx', hxf⟩
        exact ⟨err, by simp [writeRows, rowCells_ok r hwf, herr]⟩

/-- A row with an empty value wrapper, triggering `IndexError`. -/
def badWrapperRow : ReportRow :=
  { dimensionValues := some [("COUNTRY", [])],
    metricValues := some [("CLICKS", [("integerValue", "7")])] }

/-- C10: on a non-empty report containing a row that lacks one of the two
inner dicts or has an empty value wrapper, the exporter raises a
`KeyError` or `IndexError` (the only error kinds) instead of silently
misaligning; the target file has been opened for writing, so it holds the
(possibly partial) lines written before the exception. -/
theorem save_to_csv_raises (report : List ReportRow) (fs : Option CsvContent)
    (first : ReportRow) (rest : List ReportRow)
    (hrep : report = first :: rest)
    (hbad : ∃ r ∈ report, wellFormedRow r = false) :
    (∃ err, (save_to_csv report fs).2 = some err) ∧
    ∃ l, (save_to_csv report fs).1 = some l := by
  subst hrep
  cases hh : headerCells first with
  | error err => exact ⟨⟨err, by simp [save_to_csv, hh]⟩, ⟨[], by simp [save_to_csv, hh]⟩⟩
  | ok header =>
    obtain ⟨err, herr⟩ := writeRows_error (first :: rest) [header] hbad
    exact ⟨⟨err, by simp [save_to_csv, hh, herr]⟩,
      ⟨(writeRows (first :: rest) [header]).1, by simp [save_to_csv, hh]⟩⟩

/-- Witness for C10 on a report whose second row has an empty value
wrapper. -/
theorem save_to_csv_raises_witness :
    (∃ err, (save_to_csv [exampleRow1, badWrapperRow] none).2 = some err) ∧
    ∃ l, (save_to_csv [exampleRow1, badWrapperRow] none).1 = some l :=
  save_to_csv_raises [exampleRow1, badWrapperRow] none exampleRow1
    [badWrapperRow] rfl ⟨badWrapperRow, by decide, by decide⟩

/-! ### Round-trip of rendering and naive re-parsing -/

/-- A cell that needs no quoting contains no comma. -/
theorem no_comma_of_plain (s : List Char) (h : needsQuote s = false) :
    ∀ c ∈ s, c ≠ ',' := by
  intro c hc
  have := List.any_eq_false.mp h c hc
  intro hcc
  simp [hcc] at this

/-- A cell that needs no quoting is rendered verbatim. -/
theorem quoteCell_plain (s : List Char) (h : needsQuote s = false) :
    quoteCell s = s := by
  simp [quoteCell, h]

/-- Splitting a comma-free text yields that text as the single cell. -/
theorem splitComma_no_comma (l : List Char) (h : ∀ c ∈ l, c ≠ ',') :
    splitComma l = [l] := by
  induction l with
  | nil => rfl
  | cons c cs ih =>
    have hc : c ≠ ',' := h c (List.mem_cons_self c cs)
    simp only [splitComma, if_neg hc,
      ih (fun x hx => h x (List.mem_cons_of_mem c hx))]

/-- Splitting text that starts with a comma-free cell, a comma, and a
tail peels off exactly that cell. -/
theorem splitComma_append (c t : List Char) (h : ∀ x ∈ c, x ≠ ',') :
    splitComma (c ++ ',' :: t) = c :: splitComma t := by
  induction c with
  | nil => simp [splitComma]
  | cons x xs ih =>
    have hx : x ≠ ',' := h x (List.mem_cons_self x xs)
    simp only [List.cons_append, splitComma, if_neg hx, List.append_eq,
      ih (fun y hy => h y (List.mem_cons_of_mem x hy))]

/-- Splitting undoes joining for a nonempty list of comma-free cells. -/
theorem splitComma_joinComma (cells : List (List Char)) (hne : cells ≠ [])
    (h : ∀ c ∈ cells, ∀ x ∈ c, x ≠ ',') :
    splitComma (joinComma cells) = cells := by
  induction cells with
  | nil => exact absurd rfl hne
  | cons c cs ih =>
    cases cs with
    | nil =>
      simp only [joinComma]
      exact splitComma_no_comma c (h c (List.mem_cons_self c []))
    | cons c' cs' =>
      show splitComma (c ++ ',' :: joinComma (c' :: cs')) = c :: c' :: cs'
      rw [splitComma_append c (joinComma (c' :: cs'))
        (h c (List.mem_cons_self c (c' :: cs')))]
      rw [ih (by simp) (fun y hy => h y (List.mem_cons_of_mem c hy))]

/-- Re-parsing one rendered line recovers its cells, provided the line is
not the empty record and no cell needs quoting. -/
theorem parseLine_renderLine (cells : List String) (hne : cells ≠ [])
    (h : ∀ c ∈ cells, needsQuote c.data = false) :
    parseLine (renderLine cells) = cells := by
  have hq : cells.map (fun s => quoteCell s.data) = cells.map (fun s => s.data) := by
    apply List.map_congr_left
    intro s hs
    exact quoteCell_plain s.data (h s hs)
  have hmapne : cells.map (fun s => s.data) ≠ [] := by
    simpa using hne
  have hnocomma : ∀ c ∈ cells.map (fun s => s.data), ∀ x ∈ c, x ≠ ',' := by
    intro c hc
    obtain ⟨s, hs, rfl⟩ := List.mem_map.mp hc
    exact no_comma_of_plain s.data (h s hs)
  simp only [parseLine, renderLine, hq,
    splitComma_joinComma (cells.map (fun s => s.data)) hmapne hnocomma,
    List.map_map]
  exact List.map_id cells

/-- Re-parsing the whole rendered file recovers its records, provided no
record is empty and no cell needs quoting. -/
theorem parseFile_renderFile (l : CsvContent)
    (hne : ∀ line ∈ l, line ≠ [])
    (hplain : ∀ line ∈ l, ∀ cell ∈ line, needsQuote cell.data = false) :
    parseFile (renderFile l) = l := by
  induction l with
  | nil => rfl
  | cons line rest ih =>
    have hrest := ih (fun x hx => hne x (List.mem_cons_of_mem line hx))
      (fun x hx => hplain x (List.mem_cons_of_mem line hx))
    simp only [renderFile, parseFile, List.map_cons] at hrest ⊢
    rw [parseLine_renderLine line (hne line (List.mem_cons_self line rest))
      (hplain line (List.mem_cons_self line rest)), hrest]

/-- C6: round-trip — for a non-empty uniform report (with at least one
column, all cell texts plain), re-parsing the rendered file as delimited
text and zipping the header with each data line reproduces each row's
original flattened dimension+metric (name, value) pairs in the original
order. -/
theorem save_to_csv_round_trip (report : List ReportRow)
    (fs : Option CsvContent) (first : ReportRow) (rest : List ReportRow)
    (hrep : report = first :: rest)
    (hwf : ∀ r ∈ report, wellFormedRow r = true)
    (hkeys : ∀ r ∈ report, rowKeys r = rowKeys first)
    (hplain : ∀ line ∈ rowKeys first :: report.map rowVals,
      ∀ cell ∈ line, needsQuote cell.data = false)
    (hcols : rowKeys first ≠ []) :
    ∃ l, save_to_csv report fs = (some l, none) ∧
      l = rowKeys first :: report.map rowVals ∧
      parseFile (renderFile l) = l ∧
      ∀ r ∈ report, (rowKeys first).zip (rowVals r) = rowPairs r := by
  refine ⟨rowKeys first :: report.map rowVals,
    save_to_csv_wf_eq report fs first rest hrep hwf, rfl, ?_, ?_⟩
  · apply parseFile_renderFile _ _ hplain
    intro line hline
    rcases List.mem_cons.mp hline with rfl | hline'
    · exact hcols
    · obtain ⟨r, hr, rfl⟩ := List.mem_map.mp hline'
      intro hnil
      have hlen : (rowVals r).length = (rowKeys first).length := by
        rw [rowVals_length, hkeys r hr]
      rw [hnil] at hlen
      exact hcols (List.length_eq_zero.mp hlen.symm)
  · intro r hr
    rw [← hkeys r hr, rowKeys, rowVals, List.zip_map' Prod.fst
      (fun e => extractedValue e.2) (rowEntries r), rowPairs]

/-- Witness for C6 at the spec's example report. -/
theorem save_to_csv_round_trip_witness :
    ∃ l, save_to_csv exampleReport none = (some l, none) ∧
      l = rowKeys exampleRow1 :: exampleReport.map rowVals ∧
      parseFile (renderFile l) = l ∧
      ∀ r ∈ exampleReport, (rowKeys exampleRow1).zip (rowVals r) = rowPairs r :=
  save_to_csv_round_trip exampleReport none exampleRow1 [exampleRow2] rfl
    (by decide) (by decide) (by decide) (by decide)

/-- C4: the fetcher returns exactly the ordered row sequence contained in
the service's response; in particular a zero-row response yields the empty
sequence (and, the model being total, no error). -/
theorem generate_returns_response_rows
    (service : GenerateRequest → GenerateResponse) (publisher_id : String) :
    generate_campaign_report service publisher_id
        = (service (campaignReportRequest publisher_id)).rows ∧
    ((service (campaignReportRequest publisher_id)).rows = [] →
      generate_campaign_report service publisher_id = []) :=
  ⟨rfl, fun h => h⟩

/-- Witness for C4 on a service answering zero rows. -/
theorem generate_returns_response_rows_witness :
    generate_campaign_report emptyService "pub-XXXXXXXXXXXXXXXX" = [] :=
  (generate_returns_response_rows emptyService "pub-XXXXXXXXXXXXXXXX").2 rfl

/-- C5: when the fetched report is empty, `main` does not short-circuit:
the file at the default path is left untouched (no file produced when none
existed), no exception is raised, and the upload step is still invoked on
the default output path. -/
theorem main_empty_report_still_uploads
    (service : GenerateRequest → GenerateResponse) (fs : Option CsvContent)
    (h : (service (campaignReportRequest PUBLISHER_ID)).rows = []) :
    main_run service fs
      = { csvFile := fs, uploads := [defaultCsvPath], error := none } := by
  unfold main_run generate_campaign_report
  rw [h]
  rfl

/-- Witness for C5 on a service answering zero rows, with no file at the
default path. -/
theorem main_empty_report_still_uploads_witness :
    main_run emptyService none
      = { csvFile := none, uploads := [defaultCsvPath], error := none } :=
  main_empty_report_still_uploads emptyService none rfl
